import Mathlib

set_option maxHeartbeats 1000000

/- Shallow embedding of
   azurerm/internal/services/cosmos/cosmosdb_mongo_database_resource.go:
   the Create/Read/Update/Delete reconciler for a Cosmos DB Mongo database.
   Remote calls are modelled by per-operation oracle records (a world); each
   call either succeeds with a response value or fails, and a failure carries
   the Boolean classification of its response as not-found (the embedding of
   utils.ResponseWasNotFound / response.WasNotFound applied to the response).
   Each operation returns its outcome together with the list of remote calls
   it issued, so that claims about which calls are or are not made are
   statable. -/

/- Autoscale settings block, as carried in state and payloads. -/
structure AutoscaleSettings where
  maxThroughput : Option Int
deriving DecidableEq

/- The embedding of schema.ResourceData for this resource: the persisted
   state. id models d.Id() / d.SetId; the remaining fields model the schema
   attributes. Optional/computed attributes are Option-valued; d.Set of a
   nil value stores none. -/
structure ResourceData where
  id : String
  name : Option String
  resource_group_name : Option String
  account_name : Option String
  throughput : Option Int
  autoscale_settings : Option AutoscaleSettings
deriving DecidableEq

/- Parsed identifier, as produced by parse.MongodbDatabaseID. -/
structure MongodbDatabaseId where
  ResourceGroup : String
  DatabaseAccountName : String
  Name : String
deriving DecidableEq

/- The error taxonomy of the source file: one constructor per distinct
   error-return site, carrying the identifying context that the Go
   fmt.Errorf call interpolates. -/
inductive Err where
  | parseFailed (input : String)
  | checkingPresence (name account : String)
  | generatingImportID (name account : String)
  | importAsExists (resourceType existingID : String)
  | issuingCreateUpdate (name account : String)
  | waitingCreateUpdate (name account : String)
  | gettingAfterCreate (name account : String)
  | nilID (name account : String)
  | conflictingCapacity (name account : String)
  | settingThroughput (name account : String)
  | waitingThroughput (name account : String)
  | readingDatabase (name account : String)
  | readingAccount (account resourceGroup : String)
  | accountIDEmpty (account resourceGroup : String)
  | readingThroughput (name account : String)
  | deleting (name account : String)
  | waitingDelete (name account : String)
deriving DecidableEq

/- Outcome of an operation: nil return with final state, error return with
   the state at the point of return, or a Go runtime nil-pointer
   dereference. -/
inductive Outcome (σ : Type) where
  | ok : σ → Outcome σ
  | fail : Err → σ → Outcome σ
  | nilDereference : Outcome σ
deriving DecidableEq

/- Result of one remote call: success with a response value, or a failure
   whose Boolean records whether the failure response was classified
   not-found. -/
inductive RemoteResult (α : Type) where
  | ok : α → RemoteResult α
  | fail : Bool → RemoteResult α
deriving DecidableEq

/- documentdb.MongoDBDatabaseResource as returned by GetMongoDBDatabase:
   the ID is a *string, hence Option. -/
structure MongoDBDatabaseResource where
  ID : Option String
deriving DecidableEq

/- documentdb.MongoDBDatabaseGetProperties: Resource is a pointer. -/
structure MongoDBDatabaseGetProperties where
  Resource : Option MongoDBDatabaseResource
deriving DecidableEq

/- documentdb.MongoDBDatabaseGetResults: top-level ID is a *string, and the
   props field models the embedded MongoDBDatabaseGetProperties pointer. -/
structure MongoDBDatabaseGetResults where
  ID : Option String
  props : Option MongoDBDatabaseGetProperties
deriving DecidableEq

/- documentdb.DatabaseAccountGetResults, restricted to the fields the
   reconciler inspects: the account ID and the capacity-mode
   classification consumed by isServerlessCapacityMode. -/
structure DatabaseAccountGetResults where
  ID : Option String
  serverlessCapability : Bool
deriving DecidableEq

/- Modelled from the spec: isServerlessCapacityMode (its body is not under
   src/) classifies the owning account as serverless from the account-get
   response; here the classification is carried directly on the response. -/
def isServerlessCapacityMode (acc : DatabaseAccountGetResults) : Bool :=
  acc.serverlessCapability

/- documentdb.ThroughputSettingsGetResults, restricted to the observed
   capacity fields that Read mirrors into state. -/
structure ThroughputSettingsGetResults where
  throughput : Option Int
  autoscaleSettings : Option AutoscaleSettings
deriving DecidableEq

/- Modelled from the spec: common.SetResourceDataThroughputFromResponse
   (not under src/) populates the throughput and autoscale_settings state
   fields from the throughput-get response. -/
def SetResourceDataThroughputFromResponse (resp : ThroughputSettingsGetResults)
    (d : ResourceData) : ResourceData :=
  { d with throughput := resp.throughput,
           autoscale_settings := resp.autoscaleSettings }

/- documentdb.ThroughputSettingsUpdateParameters, restricted to the
   capacity payload. -/
structure ThroughputSettingsUpdateParameters where
  throughput : Option Int
  autoscaleSettings : Option AutoscaleSettings
deriving DecidableEq

/- Modelled from the spec: common.ExpandCosmosDBThroughputSettingsUpdateParameters
   (not under src/) maps an autoscale desired state to an autoscale-only
   payload and a fixed-throughput desired state to a throughput-only
   payload. -/
def ExpandCosmosDBThroughputSettingsUpdateParameters (d : ResourceData) :
    ThroughputSettingsUpdateParameters :=
  match d.autoscale_settings with
  | some a => { throughput := none, autoscaleSettings := some a }
  | none => { throughput := d.throughput, autoscaleSettings := none }

/- documentdb.CreateUpdateOptions: both capacity attachments are pointers,
   absent by default. -/
structure CreateUpdateOptions where
  Throughput : Option Int := none
  AutoscaleSettings : Option AutoscaleSettings := none
deriving DecidableEq

/- documentdb.MongoDBDatabaseCreateUpdateParameters: the mandatory name
   resource (Resource.ID, always set by the reconciler) plus options. -/
structure MongoDBDatabaseCreateUpdateParameters where
  resourceID : String
  Options : CreateUpdateOptions
deriving DecidableEq

/- Modelled from the spec: common.ConvertThroughputFromResourceData (not
   under src/) converts the desired throughput value into the payload
   pointer. -/
def ConvertThroughputFromResourceData (throughput : Int) : Option Int :=
  some throughput

/- Modelled from the spec: common.ExpandCosmosDbAutoscaleSettings (not
   under src/) reads the autoscale_settings block from state into the
   payload. -/
def ExpandCosmosDbAutoscaleSettings (d : ResourceData) : Option AutoscaleSettings :=
  d.autoscale_settings

/- The plugin-sdk GetOk semantics for an integer attribute (external
   framework): the value together with an existence flag that is false for
   an unset attribute and for the zero value. -/
def GetOkInt (o : Option Int) : Int × Bool :=
  match o with
  | some v => (v, v != 0)
  | none => (0, false)

/- The plugin-sdk GetOk existence flag for the autoscale_settings block
   (external framework): present when the block is set. -/
def GetOkAutoscale (o : Option AutoscaleSettings) : Bool :=
  o.isSome

/- One remote call issued by an operation, with the request data it
   carried. -/
inductive CallEvent where
  | getDatabase (resourceGroup account name : String)
  | createUpdateDatabase (resourceGroup account name : String)
      (payload : MongoDBDatabaseCreateUpdateParameters)
  | waitCreateUpdate
  | getAccount (resourceGroup account : String)
  | getThroughput (resourceGroup account name : String)
  | updateThroughput (resourceGroup account name : String)
      (params : ThroughputSettingsUpdateParameters)
  | waitThroughputUpdate
  | deleteDatabase (resourceGroup account name : String)
  | waitDelete
deriving DecidableEq

/- Recognizer for the per-database throughput query among issued calls. -/
def CallEvent.isGetThroughput : CallEvent → Bool
  | .getThroughput _ _ _ => true
  | _ => false

/- Character predicate for path-segment contents: not the separator. -/
def notSlash (c : Char) : Bool :=
  c != '/'

/- Consume an exact literal prefix, returning the remainder. -/
def stripLit : List Char → List Char → Option (List Char)
  | [], s => some s
  | _ :: _, [] => none
  | c :: cs, x :: xs => if x = c then stripLit cs xs else none

/- Modelled from the spec: the segment-wise parser behind
   parse.MongodbDatabaseID (the parse package is not under src/). The
   current-version layout is the exact path
   /resourceGroups/rg/databaseAccounts/account/mongodbDatabases/name with
   non-empty, separator-free components; anything else is malformed. -/
def parseChars (s : List Char) : Option (List Char × List Char × List Char) :=
  (stripLit "/resourceGroups/".toList s).bind fun s1 =>
    let rg := s1.takeWhile notSlash
    (stripLit "/databaseAccounts/".toList (s1.dropWhile notSlash)).bind fun s3 =>
      let acct := s3.takeWhile notSlash
      (stripLit "/mongodbDatabases/".toList (s3.dropWhile notSlash)).bind fun nm =>
        if rg ≠ [] ∧ acct ≠ [] ∧ nm ≠ [] ∧ ∀ c ∈ nm, notSlash c then
          some (rg, acct, nm)
        else none

/- Modelled from the spec: parse.MongodbDatabaseID (not under src/) parses
   the serialized identifier, failing with the malformed-identifier error
   on any string outside the current-version layout. -/
def MongodbDatabaseID (input : String) : Except Err MongodbDatabaseId :=
  match parseChars input.toList with
  | some (rg, acct, nm) => .ok ⟨String.mk rg, String.mk acct, String.mk nm⟩
  | none => .error (.parseFailed input)

/- Modelled from the spec: the identifier Build operation — pure
   construction of the composite key. -/
def buildMongodbDatabaseID (resourceGroup accountName name : String) :
    MongodbDatabaseId :=
  ⟨resourceGroup, accountName, name⟩

/- Modelled from the spec: the identifier Serialize operation —
   deterministic rendering into the current-version path layout. -/
def serializeMongodbDatabaseID (id : MongodbDatabaseId) : String :=
  "/resourceGroups/" ++ id.ResourceGroup ++ "/databaseAccounts/" ++
    id.DatabaseAccountName ++ "/mongodbDatabases/" ++ id.Name

/- Oracle world for one Read: the three remote calls it may issue. -/
structure ReadWorld where
  get : RemoteResult MongoDBDatabaseGetResults
  accountGet : RemoteResult DatabaseAccountGetResults
  throughputGet : RemoteResult ThroughputSettingsGetResults
deriving DecidableEq

/- The tail of Read from the account fetch on, lines 225-249 of the source:
   account metadata fetch and classification, then the conditional
   throughput fetch. d2 is the state after the mirroring d.Set calls. -/
def readThroughputPhase (d2 : ResourceData) (w : ReadWorld)
    (id : MongodbDatabaseId) (ev1 : List CallEvent) :
    Outcome ResourceData × List CallEvent :=
  match w.accountGet with
  | .fail _ =>
    (.fail (.readingAccount id.DatabaseAccountName id.ResourceGroup) d2, ev1)
  | .ok accResp =>
    if accResp.ID = none ∨ accResp.ID = some "" then
      (.fail (.accountIDEmpty id.DatabaseAccountName id.ResourceGroup) d2, ev1)
    else if ¬ isServerlessCapacityMode accResp then
      let ev2 := ev1 ++ [CallEvent.getThroughput id.ResourceGroup id.DatabaseAccountName id.Name]
      match w.throughputGet with
      | .fail nf =>
        if ¬ nf then
          (.fail (.readingThroughput id.Name id.DatabaseAccountName) d2, ev2)
        else
          (.ok { d2 with throughput := none, autoscale_settings := none }, ev2)
      | .ok tResp => (.ok (SetResourceDataThroughputFromResponse tResp d2), ev2)
    else (.ok d2, ev1)

/- resourceCosmosDbMongoDatabaseRead, lines 195-250 of the source. -/
def resourceCosmosDbMongoDatabaseRead (d : ResourceData) (w : ReadWorld) :
    Outcome ResourceData × List CallEvent :=
  match MongodbDatabaseID d.id with
  | .error e => (.fail e d, [])
  | .ok id =>
    let ev0 := [CallEvent.getDatabase id.ResourceGroup id.DatabaseAccountName id.Name]
    match w.get with
    | .fail nf =>
      if nf then (.ok { d with id := "" }, ev0)
      else (.fail (.readingDatabase id.Name id.DatabaseAccountName) d, ev0)
    | .ok resp =>
      let d1 := { d with resource_group_name := some id.ResourceGroup,
                         account_name := some id.DatabaseAccountName }
      let d2 :=
        match resp.props with
        | some props =>
          match props.Resource with
          | some res => { d1 with name := res.ID }
          | none => d1
        | none => d1
      readThroughputPhase d2 w id
        (ev0 ++ [CallEvent.getAccount id.ResourceGroup id.DatabaseAccountName])

/- Oracle world for one Create: probe, upsert submission, upsert wait,
   re-fetch, then the chained Read's world. -/
structure CreateWorld where
  probe : RemoteResult MongoDBDatabaseGetResults
  createUpdate : RemoteResult Unit
  createWait : RemoteResult Unit
  refetch : RemoteResult MongoDBDatabaseGetResults
  readWorld : ReadWorld
deriving DecidableEq

/- The create payload construction, lines 98-115 of the source: mandatory
   name resource, then the two conditional capacity attachments. -/
def createPayload (d : ResourceData) : MongoDBDatabaseCreateUpdateParameters :=
  let opts0 : CreateUpdateOptions := {}
  let t := GetOkInt d.throughput
  let opts1 :=
    if t.2 then
      if t.1 != 0 then { opts0 with Throughput := ConvertThroughputFromResourceData t.1 }
      else opts0
    else opts0
  let opts2 :=
    if GetOkAutoscale d.autoscale_settings then
      { opts1 with AutoscaleSettings := ExpandCosmosDbAutoscaleSettings d }
    else opts1
  { resourceID := d.name.getD "", Options := opts2 }

/- resourceCosmosDbMongoDatabaseCreate, lines 76-138 of the source. The
   probe-success branch embeds the guard
   existing.ID == nil && *existing.ID == "" literally: when existing.ID is
   nil the left conjunct holds and the right conjunct dereferences the nil
   pointer; when existing.ID is non-nil the guard is false and the
   import-as-exists error is returned with the dereferenced ID. -/
def resourceCosmosDbMongoDatabaseCreate (d : ResourceData) (w : CreateWorld) :
    Outcome ResourceData × List CallEvent :=
  let name := d.name.getD ""
  let resourceGroup := d.resource_group_name.getD ""
  let account := d.account_name.getD ""
  let ev0 := [CallEvent.getDatabase resourceGroup account name]
  match w.probe with
  | .ok existing =>
    match existing.ID with
    | none => (.nilDereference, ev0)
    | some i => (.fail (.importAsExists "azurerm_cosmosdb_mongo_database" i) d, ev0)
  | .fail nf =>
    if ¬ nf then (.fail (.checkingPresence name account) d, ev0)
    else
      let db := createPayload d
      let ev1 := ev0 ++ [CallEvent.createUpdateDatabase resourceGroup account name db]
      match w.createUpdate with
      | .fail _ => (.fail (.issuingCreateUpdate name account) d, ev1)
      | .ok _ =>
        let ev2 := ev1 ++ [CallEvent.waitCreateUpdate]
        match w.createWait with
        | .fail _ => (.fail (.waitingCreateUpdate name account) d, ev2)
        | .ok _ =>
          let ev3 := ev2 ++ [CallEvent.getDatabase resourceGroup account name]
          match w.refetch with
          | .fail _ => (.fail (.gettingAfterCreate name account) d, ev3)
          | .ok resp =>
            match resp.ID with
            | none => (.fail (.nilID name account) d, ev3)
            | some i =>
              let d1 := { d with id := i }
              let r := resourceCosmosDbMongoDatabaseRead d1 w.readWorld
              (r.1, ev3 ++ r.2)

/- Modelled from the spec: the diff information the update path consults.
   capacityModeConflict embeds the verdict of
   common.CheckForChangeFromAutoscaleAndManualThroughput (not under src/):
   the update attempts to set fixed throughput and autoscale
   simultaneously. hasChange embeds common.HasThroughputChange (not under
   src/): the plan changes a capacity attribute. -/
structure UpdateDiff where
  capacityModeConflict : Bool
  hasChange : Bool
deriving DecidableEq

/- Oracle world for one Update. -/
structure UpdateWorld where
  createUpdate : RemoteResult Unit
  upsertWait : RemoteResult Unit
  throughputUpdate : RemoteResult Unit
  throughputWait : RemoteResult Unit
  refetch : RemoteResult MongoDBDatabaseGetResults
  readWorld : ReadWorld
deriving DecidableEq

/- The base upsert payload built by Update, lines 155-162 of the source:
   only the mandatory name resource, with empty options. -/
def updatePayload (id : MongodbDatabaseId) : MongoDBDatabaseCreateUpdateParameters :=
  { resourceID := id.Name, Options := {} }

/- Tail of Update after the capacity phase: the confirming re-fetch
   (line 188) and the chained Read. -/
def updateFinal (d : ResourceData) (w : UpdateWorld) (id : MongodbDatabaseId)
    (ev : List CallEvent) : Outcome ResourceData × List CallEvent :=
  let ev5 := ev ++ [CallEvent.getDatabase id.ResourceGroup id.DatabaseAccountName id.Name]
  match w.refetch with
  | .fail _ => (.fail (.gettingAfterCreate id.Name id.DatabaseAccountName) d, ev5)
  | .ok _ =>
    let r := resourceCosmosDbMongoDatabaseRead d w.readWorld
    (r.1, ev5 ++ r.2)

/- The wait on the throughput-update future, lines 183-185 of the
   source. -/
def updateWaitThroughput (d : ResourceData) (w : UpdateWorld)
    (id : MongodbDatabaseId) (ev : List CallEvent) :
    Outcome ResourceData × List CallEvent :=
  let ev4 := ev ++ [CallEvent.waitThroughputUpdate]
  match w.throughputWait with
  | .fail _ => (.fail (.waitingThroughput id.Name id.DatabaseAccountName) d, ev4)
  | .ok _ => updateFinal d w id ev4

/- The capacity phase of Update, lines 173-186 of the source, embedded
   literally: when the throughput-update call fails, an error is returned
   only if the failure response was classified not-found; otherwise control
   falls through to the wait on the future. -/
def updateThroughputPhase (d : ResourceData) (diff : UpdateDiff) (w : UpdateWorld)
    (id : MongodbDatabaseId) (ev : List CallEvent) :
    Outcome ResourceData × List CallEvent :=
  if diff.hasChange then
    let params := ExpandCosmosDBThroughputSettingsUpdateParameters d
    let ev3 := ev ++ [CallEvent.updateThroughput id.ResourceGroup id.DatabaseAccountName id.Name params]
    match w.throughputUpdate with
    | .fail nf =>
      if nf then (.fail (.settingThroughput id.Name id.DatabaseAccountName) d, ev3)
      else updateWaitThroughput d w id ev3
    | .ok _ => updateWaitThroughput d w id ev3
  else updateFinal d w id ev

/- resourceCosmosDbMongoDatabaseUpdate, lines 140-193 of the source. -/
def resourceCosmosDbMongoDatabaseUpdate (d : ResourceData) (diff : UpdateDiff)
    (w : UpdateWorld) : Outcome ResourceData × List CallEvent :=
  match MongodbDatabaseID d.id with
  | .error e => (.fail e d, [])
  | .ok id =>
    if diff.capacityModeConflict then
      (.fail (.conflictingCapacity id.Name id.DatabaseAccountName) d, [])
    else
      let db := updatePayload id
      let ev1 := [CallEvent.createUpdateDatabase id.ResourceGroup id.DatabaseAccountName id.Name db]
      match w.createUpdate with
      | .fail _ => (.fail (.issuingCreateUpdate id.Name id.DatabaseAccountName) d, ev1)
      | .ok _ =>
        let ev2 := ev1 ++ [CallEvent.waitCreateUpdate]
        match w.upsertWait with
        | .fail _ => (.fail (.waitingCreateUpdate id.Name id.DatabaseAccountName) d, ev2)
        | .ok _ => updateThroughputPhase d diff w id ev2

/- Oracle world for one Delete. -/
structure DeleteWorld where
  delete : RemoteResult Unit
  wait : RemoteResult Unit
deriving DecidableEq

/- The wait on the delete future, lines 269-272 of the source. -/
def deleteWait (d : ResourceData) (w : DeleteWorld) (id : MongodbDatabaseId)
    (ev : List CallEvent) : Outcome ResourceData × List CallEvent :=
  let ev2 := ev ++ [CallEvent.waitDelete]
  match w.wait with
  | .fail _ => (.fail (.waitingDelete id.Name id.DatabaseAccountName) d, ev2)
  | .ok _ => (.ok d, ev2)

/- resourceCosmosDbMongoDatabaseDelete, lines 252-275 of the source: a
   delete-submission failure is fatal unless classified not-found, and the
   wait on the future runs in either surviving case. -/
def resourceCosmosDbMongoDatabaseDelete (d : ResourceData) (w : DeleteWorld) :
    Outcome ResourceData × List CallEvent :=
  match MongodbDatabaseID d.id with
  | .error e => (.fail e d, [])
  | .ok id =>
    let ev1 := [CallEvent.deleteDatabase id.ResourceGroup id.DatabaseAccountName id.Name]
    match w.delete with
    | .fail nf =>
      if ¬ nf then (.fail (.deleting id.Name id.DatabaseAccountName) d, ev1)
      else deleteWait d w id ev1
    | .ok _ => deleteWait d w id ev1

/- Modelled from the spec: the surrounding declarative framework erases the
   persisted state when Delete returns success; the successful outcome is
   therefore post-composed with clearing the identifier. -/
def applyDelete (d : ResourceData) (w : DeleteWorld) :
    Outcome ResourceData × List CallEvent :=
  match resourceCosmosDbMongoDatabaseDelete d w with
  | (.ok s, ev) => (.ok { s with id := "" }, ev)
  | r => r

/- Concrete sample data used by the closed evidence theorems and witnesses
   below. -/

def idOrders : MongodbDatabaseId :=
  ⟨"rg1", "acct1", "orders"⟩

def dOrders : ResourceData :=
  { id := "", name := some "orders", resource_group_name := some "rg1",
    account_name := some "acct1", throughput := some 400,
    autoscale_settings := none }

def dOrdersWithId : ResourceData :=
  { dOrders with id := serializeMongodbDatabaseID idOrders }

def respPlain : MongoDBDatabaseGetResults :=
  { ID := some "remoteid", props := none }

def accServerless : DatabaseAccountGetResults :=
  { ID := some "accid", serverlessCapability := true }

def accProvisioned : DatabaseAccountGetResults :=
  { ID := some "accid", serverlessCapability := false }

def tRespFixed : ThroughputSettingsGetResults :=
  { throughput := some 400, autoscaleSettings := none }

def wReadAllOk : ReadWorld :=
  { get := .ok respPlain, accountGet := .ok accProvisioned,
    throughputGet := .ok tRespFixed }

def wReadServerless : ReadWorld :=
  { get := .ok respPlain, accountGet := .ok accServerless,
    throughputGet := .fail false }

def wReadDrift : ReadWorld :=
  { get := .fail true, accountGet := .ok accProvisioned,
    throughputGet := .fail true }

def wCreateProbeNil : CreateWorld :=
  { probe := .ok { ID := none, props := none }, createUpdate := .ok (),
    createWait := .ok (), refetch := .ok respPlain, readWorld := wReadAllOk }

def wCreateProbeEmpty : CreateWorld :=
  { probe := .ok { ID := some "", props := none }, createUpdate := .ok (),
    createWait := .ok (), refetch := .ok respPlain, readWorld := wReadAllOk }

def wCreateProbeFound : CreateWorld :=
  { probe := .ok { ID := some "existing", props := none }, createUpdate := .ok (),
    createWait := .ok (), refetch := .ok respPlain, readWorld := wReadAllOk }

def wCreateEmptyRefetch : CreateWorld :=
  { probe := .fail true, createUpdate := .ok (), createWait := .ok (),
    refetch := .ok { ID := some "", props := none }, readWorld := wReadAllOk }

def wCreateNilRefetch : CreateWorld :=
  { probe := .fail true, createUpdate := .ok (), createWait := .ok (),
    refetch := .ok { ID := none, props := none }, readWorld := wReadAllOk }

def diffThroughputChange : UpdateDiff :=
  { capacityModeConflict := false, hasChange := true }

def diffNoChange : UpdateDiff :=
  { capacityModeConflict := false, hasChange := false }

def wUpdateDroppedFailure : UpdateWorld :=
  { createUpdate := .ok (), upsertWait := .ok (), throughputUpdate := .fail false,
    throughputWait := .ok (), refetch := .ok respPlain, readWorld := wReadAllOk }

def wDeleteNotFound : DeleteWorld :=
  { delete := .fail true, wait := .ok () }

/- Lemmas about the identifier codec. -/

theorem notSlash_slash : notSlash '/' = false := by decide

theorem stripLit_append (l r : List Char) : stripLit l (l ++ r) = some r := by
  induction l with
  | nil => rfl
  | cons c cs ih => simpa [stripLit] using ih

theorem stripLit_eq_some (l : List Char) :
    ∀ s r : List Char, stripLit l s = some r → s = l ++ r := by
  induction l with
  | nil =>
    intro s r h
    simpa [stripLit] using h
  | cons c cs ih =>
    intro s r h
    cases s with
    | nil => simp [stripLit] at h
    | cons x xs =>
      simp only [stripLit] at h
      split at h
      · rename_i hx
        subst hx
        simp [ih xs r h]
      · simp at h

theorem takeWhile_seg (l r : List Char) (h : ∀ c ∈ l, notSlash c) :
    (l ++ '/' :: r).takeWhile notSlash = l := by
  induction l with
  | nil => simp [List.takeWhile_cons, notSlash_slash]
  | cons c cs ih =>
    have hc : notSlash c := h c (by simp)
    simp only [List.cons_append, List.takeWhile_cons, hc, if_true]
    rw [ih (fun x hx => h x (by simp [hx]))]

theorem dropWhile_seg (l r : List Char) (h : ∀ c ∈ l, notSlash c) :
    (l ++ '/' :: r).dropWhile notSlash = '/' :: r := by
  induction l with
  | nil => simp [List.dropWhile_cons, notSlash_slash]
  | cons c cs ih =>
    have hc : notSlash c := h c (by simp)
    simp only [List.cons_append, List.dropWhile_cons, hc, if_true]
    exact ih (fun x hx => h x (by simp [hx]))

theorem string_ext {s t : String} (h : s.data = t.data) : s = t := by
  cases s
  cases t
  exact congrArg String.mk h

theorem toList_ne_nil {s : String} (h : s ≠ "") : s.toList ≠ [] := by
  intro hd
  apply h
  apply string_ext
  have : s.data = [] := hd
  rw [this]

theorem serialize_toList (id : MongodbDatabaseId) :
    (serializeMongodbDatabaseID id).toList =
      "/resourceGroups/".toList ++ id.ResourceGroup.toList ++
      "/databaseAccounts/".toList ++ id.DatabaseAccountName.toList ++
      "/mongodbDatabases/".toList ++ id.Name.toList := by
  simp [serializeMongodbDatabaseID, String.toList, String.data_append]

theorem parseChars_serialize (a b c : List Char)
    (ha : a ≠ []) (hb : b ≠ []) (hc : c ≠ [])
    (ha' : ∀ x ∈ a, notSlash x) (hb' : ∀ x ∈ b, notSlash x)
    (hc' : ∀ x ∈ c, notSlash x) :
    parseChars ("/resourceGroups/".toList ++ a ++ "/databaseAccounts/".toList ++ b ++
      "/mongodbDatabases/".toList ++ c) = some (a, b, c) := by
  unfold parseChars
  simp only [List.append_assoc]
  rw [stripLit_append]
  simp only [Option.some_bind]
  have hts1 : (a ++ ("/databaseAccounts/".toList ++
      (b ++ ("/mongodbDatabases/".toList ++ c)))).takeWhile notSlash = a :=
    takeWhile_seg a ("databaseAccounts/".toList ++
      (b ++ ("/mongodbDatabases/".toList ++ c))) ha'
  have hds1 : (a ++ ("/databaseAccounts/".toList ++
      (b ++ ("/mongodbDatabases/".toList ++ c)))).dropWhile notSlash =
      '/' :: ("databaseAccounts/".toList ++ (b ++ ("/mongodbDatabases/".toList ++ c))) :=
    dropWhile_seg a ("databaseAccounts/".toList ++
      (b ++ ("/mongodbDatabases/".toList ++ c))) ha'
  rw [hts1, hds1]
  have hs2 : stripLit "/databaseAccounts/".toList
      ('/' :: ("databaseAccounts/".toList ++ (b ++ ("/mongodbDatabases/".toList ++ c)))) =
      some (b ++ ("/mongodbDatabases/".toList ++ c)) :=
    stripLit_append "/databaseAccounts/".toList (b ++ ("/mongodbDatabases/".toList ++ c))
  rw [hs2]
  simp only [Option.some_bind]
  have hts2 : (b ++ ("/mongodbDatabases/".toList ++ c)).takeWhile notSlash = b :=
    takeWhile_seg b ("mongodbDatabases/".toList ++ c) hb'
  have hds2 : (b ++ ("/mongodbDatabases/".toList ++ c)).dropWhile notSlash =
      '/' :: ("mongodbDatabases/".toList ++ c) :=
    dropWhile_seg b ("mongodbDatabases/".toList ++ c) hb'
  rw [hts2, hds2]
  have hs3 : stripLit "/mongodbDatabases/".toList
      ('/' :: ("mongodbDatabases/".toList ++ c)) = some c :=
    stripLit_append "/mongodbDatabases/".toList c
  rw [hs3]
  simp only [Option.some_bind]
  rw [if_pos ⟨ha, hb, hc, hc'⟩]

theorem parseChars_sound (l a b c : List Char) (h : parseChars l = some (a, b, c)) :
    l = "/resourceGroups/".toList ++ a ++ "/databaseAccounts/".toList ++ b ++
        "/mongodbDatabases/".toList ++ c := by
  unfold parseChars at h
  cases h1 : stripLit "/resourceGroups/".toList l with
  | none => rw [h1] at h; simp at h
  | some s1 =>
    rw [h1] at h
    simp only [Option.some_bind] at h
    cases h2 : stripLit "/databaseAccounts/".toList (s1.dropWhile notSlash) with
    | none => rw [h2] at h; simp at h
    | some s3 =>
      rw [h2] at h
      simp only [Option.some_bind] at h
      cases h3 : stripLit "/mongodbDatabases/".toList (s3.dropWhile notSlash) with
      | none => rw [h3] at h; simp at h
      | some nm =>
        rw [h3] at h
        simp only [Option.some_bind] at h
        split at h
        · simp only [Option.some.injEq, Prod.mk.injEq] at h
          obtain ⟨ha, hb, hc⟩ := h
          subst ha
          subst hb
          subst hc
          have e1 := stripLit_eq_some _ _ _ h1
          have e2 := stripLit_eq_some _ _ _ h2
          have e3 := stripLit_eq_some _ _ _ h3
          calc l = "/resourceGroups/".toList ++ s1 := e1
            _ = "/resourceGroups/".toList ++
                (s1.takeWhile notSlash ++ s1.dropWhile notSlash) := by
                rw [List.takeWhile_append_dropWhile]
            _ = "/resourceGroups/".toList ++
                (s1.takeWhile notSlash ++ ("/databaseAccounts/".toList ++ s3)) := by
                rw [e2]
            _ = "/resourceGroups/".toList ++
                (s1.takeWhile notSlash ++ ("/databaseAccounts/".toList ++
                  (s3.takeWhile notSlash ++ s3.dropWhile notSlash))) := by
                rw [List.takeWhile_append_dropWhile]
            _ = "/resourceGroups/".toList ++
                (s1.takeWhile notSlash ++ ("/databaseAccounts/".toList ++
                  (s3.takeWhile notSlash ++ ("/mongodbDatabases/".toList ++ nm)))) := by
                rw [e3]
            _ = _ := by simp [List.append_assoc]
        · simp at h

/-- C10: for every valid (resource-group, account, name) triple of non-empty
strings (valid meaning separator-free components, as guaranteed by the
delegated config-time validators), Parse of Serialize of Build yields the
original triple, and Parse fails with the malformed-identifier error on any
string that is not in the current-version layout (the serialization of some
identifier), which includes legacy pre-migration shapes. -/
theorem C10_identifier_codec (rg acct nm : String)
    (hrg : rg ≠ "" ∧ ∀ c ∈ rg.toList, notSlash c)
    (hacct : acct ≠ "" ∧ ∀ c ∈ acct.toList, notSlash c)
    (hnm : nm ≠ "" ∧ ∀ c ∈ nm.toList, notSlash c) :
    MongodbDatabaseID (serializeMongodbDatabaseID (buildMongodbDatabaseID rg acct nm)) =
      .ok (buildMongodbDatabaseID rg acct nm) ∧
    ∀ s : String, (∀ id : MongodbDatabaseId, s ≠ serializeMongodbDatabaseID id) →
      MongodbDatabaseID s = .error (.parseFailed s) := by
  constructor
  · unfold MongodbDatabaseID
    have hp : parseChars
        (serializeMongodbDatabaseID (buildMongodbDatabaseID rg acct nm)).toList =
        some (rg.toList, acct.toList, nm.toList) := by
      rw [serialize_toList]
      exact parseChars_serialize _ _ _ (toList_ne_nil hrg.1) (toList_ne_nil hacct.1)
        (toList_ne_nil hnm.1) hrg.2 hacct.2 hnm.2
    rw [hp]
    rfl
  · intro s hs
    unfold MongodbDatabaseID
    cases hp : parseChars s.toList with
    | none => rfl
    | some t =>
      obtain ⟨a, b, c⟩ := t
      exfalso
      apply hs ⟨String.mk a, String.mk b, String.mk c⟩
      apply string_ext
      have hser : (serializeMongodbDatabaseID ⟨String.mk a, String.mk b, String.mk c⟩).toList =
          "/resourceGroups/".toList ++ a ++ "/databaseAccounts/".toList ++ b ++
          "/mongodbDatabases/".toList ++ c := serialize_toList _
      have hsnd := parseChars_sound _ _ _ _ hp
      exact hsnd.trans hser.symm

theorem C10_identifier_codec_witness :
    ("rg1" ≠ "" ∧ ∀ c ∈ "rg1".toList, notSlash c) ∧
    MongodbDatabaseID (serializeMongodbDatabaseID (buildMongodbDatabaseID "rg1" "acct1" "orders")) =
      .ok (buildMongodbDatabaseID "rg1" "acct1" "orders") :=
  ⟨by decide, (C10_identifier_codec "rg1" "acct1" "orders" (by decide) (by decide)
    (by decide)).1⟩

/-- C7: for every Create, the payload carries the mandatory name resource;
fixed-throughput is attached exactly when the desired throughput is present
and non-zero (zero or unset throughput is omitted entirely and never sent
as zero), autoscale settings are attached exactly when present, and under
the desired-state capacity exclusivity invariant the payload never carries
both attachments simultaneously. -/
theorem C7_create_payload (d : ResourceData)
    (hexcl : ¬ (d.throughput.getD 0 ≠ 0 ∧ d.autoscale_settings.isSome = true)) :
    (createPayload d).resourceID = d.name.getD "" ∧
    (∀ t : Int, d.throughput = some t → t ≠ 0 →
      (createPayload d).Options.Throughput = some t) ∧
    ((d.throughput = none ∨ d.throughput = some 0) →
      (createPayload d).Options.Throughput = none) ∧
    (createPayload d).Options.Throughput ≠ some 0 ∧
    (createPayload d).Options.AutoscaleSettings = d.autoscale_settings ∧
    ¬ ((createPayload d).Options.Throughput ≠ none ∧
       (createPayload d).Options.AutoscaleSettings ≠ none) := by
  obtain ⟨did, dnm, drg, dan, th, auto⟩ := d
  cases th with
  | none =>
    cases auto with
    | none =>
      simp [createPayload, GetOkInt, GetOkAutoscale, ExpandCosmosDbAutoscaleSettings]
    | some a =>
      simp [createPayload, GetOkInt, GetOkAutoscale, ExpandCosmosDbAutoscaleSettings]
  | some v =>
    by_cases hv : v = 0
    · subst hv
      cases auto with
      | none =>
        simp [createPayload, GetOkInt, GetOkAutoscale, ExpandCosmosDbAutoscaleSettings]
      | some a =>
        simp [createPayload, GetOkInt, GetOkAutoscale, ExpandCosmosDbAutoscaleSettings]
    · cases auto with
      | none =>
        simp [createPayload, GetOkInt, GetOkAutoscale,
          ExpandCosmosDbAutoscaleSettings, ConvertThroughputFromResourceData, hv]
      | some a =>
        exact absurd ⟨by simpa using hv, rfl⟩ hexcl

theorem C7_create_payload_witness :
    (¬ (dOrders.throughput.getD 0 ≠ 0 ∧ dOrders.autoscale_settings.isSome = true)) ∧
    (createPayload dOrders).resourceID = dOrders.name.getD "" ∧
    (createPayload dOrders).Options.Throughput ≠ some 0 :=
  ⟨by decide, (C7_create_payload dOrders (by decide)).1,
    (C7_create_payload dOrders (by decide)).2.2.2.1⟩

/-- C6: for every Create whose pre-create probe finds an existing remote
database (one carrying an identifier), Create fails with the
import-as-exists (AlreadyExists) error carrying the existing identifier;
and when the probe fails for a reason not classified not-found, that probe
failure is propagated wrapped with the name and account. -/
theorem C6_create_collision (d : ResourceData) (w : CreateWorld) :
    (∀ g s, w.probe = .ok g → g.ID = some s →
      (resourceCosmosDbMongoDatabaseCreate d w).1 =
        .fail (.importAsExists "azurerm_cosmosdb_mongo_database" s) d) ∧
    (w.probe = .fail false →
      (resourceCosmosDbMongoDatabaseCreate d w).1 =
        .fail (.checkingPresence (d.name.getD "") (d.account_name.getD "")) d) := by
  constructor
  · intro g s hp hid
    unfold resourceCosmosDbMongoDatabaseCreate
    rw [hp]
    simp [hid]
  · intro hp
    unfold resourceCosmosDbMongoDatabaseCreate
    rw [hp]
    simp

theorem C6_create_collision_witness :
    (resourceCosmosDbMongoDatabaseCreate dOrders wCreateProbeFound).1 =
      .fail (.importAsExists "azurerm_cosmosdb_mongo_database" "existing") dOrders :=
  (C6_create_collision dOrders wCreateProbeFound).1 _ "existing" rfl rfl

/-- C3: evidence of the code defect. When the pre-create probe succeeds and
the existing identifier pointer is nil, the guard
existing.ID == nil && *existing.ID == "" dereferences the nil pointer; when
the identifier is a non-nil empty string the guard is false and Create
returns the import-as-exists error carrying the empty identifier instead of
the import-ID-generation error. -/
theorem C3_nil_guard_evidence :
    (resourceCosmosDbMongoDatabaseCreate dOrders wCreateProbeNil).1 = .nilDereference ∧
    (resourceCosmosDbMongoDatabaseCreate dOrders wCreateProbeEmpty).1 =
      .fail (.importAsExists "azurerm_cosmosdb_mongo_database" "") dOrders := by
  constructor
  · rfl
  · rfl

theorem MongodbDatabaseID_empty : MongodbDatabaseID "" = .error (.parseFailed "") := rfl

/-- C4 (amended): after a successful create submission and wait, Create
fails with the invariant-violation error (the nil-identifier error) only
when the re-fetched identifier is nil; when the re-fetched identifier is a
non-nil empty string the check passes, Create persists the empty
identifier, and the chained Read then fails with the malformed-identifier
parse error. -/
theorem C4_create_refetch_id (d : ResourceData) (w : CreateWorld)
    (hprobe : w.probe = .fail true) (hcu : w.createUpdate = .ok ())
    (hwait : w.createWait = .ok ()) :
    (∀ resp, w.refetch = .ok resp → resp.ID = none →
      (resourceCosmosDbMongoDatabaseCreate d w).1 =
        .fail (.nilID (d.name.getD "") (d.account_name.getD "")) d) ∧
    (∀ resp, w.refetch = .ok resp → resp.ID = some "" →
      (resourceCosmosDbMongoDatabaseCreate d w).1 =
        .fail (.parseFailed "") { d with id := "" }) := by
  constructor
  · intro resp hr hid
    unfold resourceCosmosDbMongoDatabaseCreate
    rw [hprobe, hcu, hwait, hr]
    simp [hid]
  · intro resp hr hid
    unfold resourceCosmosDbMongoDatabaseCreate
    rw [hprobe, hcu, hwait, hr]
    simp [hid, resourceCosmosDbMongoDatabaseRead, MongodbDatabaseID_empty]

/-- C4 counterexample: with the re-fetch succeeding and returning a non-nil
empty identifier, Create does not fail with the invariant-violation
(nil-identifier) error: it persists the empty identifier and surfaces the
malformed-identifier parse error from the chained Read instead. -/
theorem C4_counterexample :
    (resourceCosmosDbMongoDatabaseCreate dOrders wCreateEmptyRefetch).1 =
      .fail (.parseFailed "") dOrders ∧
    Err.parseFailed "" ≠ Err.nilID "orders" "acct1" := by
  constructor
  · rfl
  · decide

theorem C4_create_refetch_id_witness :
    (resourceCosmosDbMongoDatabaseCreate dOrders wCreateNilRefetch).1 =
      .fail (.nilID "orders" "acct1") dOrders :=
  (C4_create_refetch_id dOrders wCreateNilRefetch rfl rfl rfl).1 _ rfl rfl

/-- C1 (amended): for every Read against an account classified serverless,
Read issues no per-database throughput query, and on return the throughput
and autoscale_settings fields of persisted state are left unchanged from
their prior values (they are not cleared). -/
theorem C1_serverless_read (d : ResourceData) (w : ReadWorld)
    (idv : MongodbDatabaseId) (hparse : MongodbDatabaseID d.id = .ok idv)
    (resp : MongoDBDatabaseGetResults) (hget : w.get = .ok resp)
    (acc : DatabaseAccountGetResults) (hacc : w.accountGet = .ok acc)
    (haid : ¬ (acc.ID = none ∨ acc.ID = some ""))
    (hsl : isServerlessCapacityMode acc = true) :
    ((resourceCosmosDbMongoDatabaseRead d w).2.all fun e => !e.isGetThroughput) ∧
    ∃ s, (resourceCosmosDbMongoDatabaseRead d w).1 = .ok s ∧
      s.throughput = d.throughput ∧ s.autoscale_settings = d.autoscale_settings ∧
      s.id = d.id := by
  unfold resourceCosmosDbMongoDatabaseRead
  rw [hparse, hget]
  dsimp only
  unfold readThroughputPhase
  rw [hacc]
  dsimp only
  rw [if_neg haid, hsl]
  simp only [not_true, ite_false]
  cases hps : resp.props with
  | none =>
    dsimp only
    exact ⟨by rfl, _, rfl, rfl, rfl, rfl⟩
  | some props =>
    dsimp only
    cases hpr : props.Resource with
    | none =>
      dsimp only
      exact ⟨by rfl, _, rfl, rfl, rfl, rfl⟩
    | some res =>
      dsimp only
      exact ⟨by rfl, _, rfl, rfl, rfl, rfl⟩

/-- C1 counterexample: a Read against a serverless account whose persisted
state carries throughput 400 returns with that throughput still present
(not null); the issued calls also contain no throughput query. -/
theorem C1_counterexample :
    resourceCosmosDbMongoDatabaseRead dOrdersWithId wReadServerless =
      (.ok dOrdersWithId,
        [.getDatabase "rg1" "acct1" "orders", .getAccount "rg1" "acct1"]) ∧
    dOrdersWithId.throughput = some 400 := by
  constructor
  · rfl
  · rfl

theorem C1_serverless_read_witness :
    ((resourceCosmosDbMongoDatabaseRead dOrdersWithId wReadServerless).2.all
      fun e => !e.isGetThroughput) ∧
    ∃ s, (resourceCosmosDbMongoDatabaseRead dOrdersWithId wReadServerless).1 = .ok s ∧
      s.throughput = dOrdersWithId.throughput ∧
      s.autoscale_settings = dOrdersWithId.autoscale_settings ∧
      s.id = dOrdersWithId.id :=
  C1_serverless_read dOrdersWithId wReadServerless idOrders rfl respPlain rfl
    accServerless rfl (by decide) rfl

theorem updateFinal_trace (d : ResourceData) (w : UpdateWorld)
    (id : MongodbDatabaseId) (ev : List CallEvent) :
    ∃ t, (updateFinal d w id ev).2 = ev ++ t := by
  unfold updateFinal
  cases w.refetch with
  | fail b => exact ⟨_, rfl⟩
  | ok r => exact ⟨_, by dsimp only; rw [List.append_assoc]⟩

theorem updateWaitThroughput_trace (d : ResourceData) (w : UpdateWorld)
    (id : MongodbDatabaseId) (ev : List CallEvent) :
    ∃ t, (updateWaitThroughput d w id ev).2 = ev ++ t := by
  unfold updateWaitThroughput
  cases w.throughputWait with
  | fail b => exact ⟨_, rfl⟩
  | ok u =>
    dsimp only
    obtain ⟨t, ht⟩ := updateFinal_trace d w id (ev ++ [CallEvent.waitThroughputUpdate])
    exact ⟨_, by rw [ht, List.append_assoc]⟩

theorem updateThroughputPhase_trace (d : ResourceData) (diff : UpdateDiff)
    (w : UpdateWorld) (id : MongodbDatabaseId) (ev : List CallEvent) :
    ∃ t, (updateThroughputPhase d diff w id ev).2 = ev ++ t := by
  unfold updateThroughputPhase
  by_cases hd : diff.hasChange
  · rw [if_pos hd]
    dsimp only
    cases w.throughputUpdate with
    | fail nf =>
      dsimp only
      by_cases hnf : nf = true
      · rw [if_pos hnf]
        exact ⟨_, rfl⟩
      · rw [if_neg hnf]
        obtain ⟨t, ht⟩ := updateWaitThroughput_trace d w id
          (ev ++ [CallEvent.updateThroughput id.ResourceGroup id.DatabaseAccountName
            id.Name (ExpandCosmosDBThroughputSettingsUpdateParameters d)])
        exact ⟨_, by rw [ht, List.append_assoc]⟩
    | ok u =>
      dsimp only
      obtain ⟨t, ht⟩ := updateWaitThroughput_trace d w id
        (ev ++ [CallEvent.updateThroughput id.ResourceGroup id.DatabaseAccountName
          id.Name (ExpandCosmosDBThroughputSettingsUpdateParameters d)])
      exact ⟨_, by rw [ht, List.append_assoc]⟩
  · rw [if_neg hd]
    exact updateFinal_trace d w id ev

/-- C5 (amended): Update's base upsert payload carries only the mandatory
name resource with empty options: it attaches neither fixed-throughput nor
autoscale settings regardless of the desired state (hence trivially never
both); it does not follow Create's conditional attachment rule, and
capacity changes are instead applied through the separate throughput-update
call. -/
theorem C5_update_payload (d : ResourceData) (diff : UpdateDiff) (w : UpdateWorld)
    (idv : MongodbDatabaseId) (hparse : MongodbDatabaseID d.id = .ok idv)
    (hconf : diff.capacityModeConflict = false) :
    (updatePayload idv).Options.Throughput = none ∧
    (updatePayload idv).Options.AutoscaleSettings = none ∧
    (resourceCosmosDbMongoDatabaseUpdate d diff w).2.head? =
      some (.createUpdateDatabase idv.ResourceGroup idv.DatabaseAccountName
        idv.Name (updatePayload idv)) := by
  refine ⟨rfl, rfl, ?_⟩
  unfold resourceCosmosDbMongoDatabaseUpdate
  rw [hparse]
  dsimp only
  rw [if_neg (by rw [hconf]; exact Bool.false_ne_true)]
  cases w.createUpdate with
  | fail b => rfl
  | ok u =>
    dsimp only
    cases w.upsertWait with
    | fail b => rfl
    | ok u2 =>
      dsimp only
      obtain ⟨t, ht⟩ := updateThroughputPhase_trace d diff w idv
        ([CallEvent.createUpdateDatabase idv.ResourceGroup idv.DatabaseAccountName
          idv.Name (updatePayload idv)] ++ [CallEvent.waitCreateUpdate])
      rw [ht]
      rfl

/-- C5 counterexample: at a state whose desired throughput is present and
non-zero (400), the base upsert payload Update submits carries no
throughput attachment, whereas Create's payload construction attaches 400 —
Update does not follow Create's attachment rule. -/
theorem C5_counterexample :
    (resourceCosmosDbMongoDatabaseUpdate dOrdersWithId diffNoChange
        wUpdateDroppedFailure).2.head? =
      some (.createUpdateDatabase "rg1" "acct1" "orders"
        { resourceID := "orders",
          Options := { Throughput := none, AutoscaleSettings := none } }) ∧
    dOrdersWithId.throughput = some 400 ∧
    (createPayload dOrdersWithId).Options.Throughput = some 400 := by
  refine ⟨?_, rfl, rfl⟩
  rfl

theorem C5_update_payload_witness :
    (updatePayload idOrders).Options.Throughput = none ∧
    (updatePayload idOrders).Options.AutoscaleSettings = none ∧
    (resourceCosmosDbMongoDatabaseUpdate dOrdersWithId diffThroughputChange
        wUpdateDroppedFailure).2.head? =
      some (.createUpdateDatabase idOrders.ResourceGroup
        idOrders.DatabaseAccountName idOrders.Name (updatePayload idOrders)) :=
  C5_update_payload dOrdersWithId diffThroughputChange wUpdateDroppedFailure
    idOrders rfl rfl

/-- C2: evidence of the code defect in the update path. With the remote
throughput-update call failing with an error not classified not-found and
the subsequent wait on the (never successfully created) future succeeding,
Update returns success: the remote-call failure is silently dropped instead
of being surfaced wrapped with the database and account names. -/
theorem C2_dropped_failure_evidence :
    wUpdateDroppedFailure.throughputUpdate = .fail false ∧
    (resourceCosmosDbMongoDatabaseUpdate dOrdersWithId diffThroughputChange
        wUpdateDroppedFailure).1 = .ok dOrdersWithId := by
  constructor
  · rfl
  · rfl

theorem readThroughputPhase_fail_state (d2 : ResourceData) (w : ReadWorld)
    (id : MongodbDatabaseId) (ev : List CallEvent) :
    ∀ e s evr, readThroughputPhase d2 w id ev = (.fail e s, evr) → s = d2 := by
  intro e s evr h
  unfold readThroughputPhase at h
  cases hacc : w.accountGet with
  | fail b =>
    rw [hacc] at h
    dsimp only at h
    simp only [Prod.mk.injEq, Outcome.fail.injEq] at h
    exact h.1.2.symm
  | ok acc =>
    rw [hacc] at h
    dsimp only at h
    by_cases hid : acc.ID = none ∨ acc.ID = some ""
    · rw [if_pos hid] at h
      simp only [Prod.mk.injEq, Outcome.fail.injEq] at h
      exact h.1.2.symm
    · rw [if_neg hid] at h
      by_cases hsl : isServerlessCapacityMode acc = true
      · rw [if_neg (not_not_intro hsl)] at h
        simp at h
      · rw [if_pos hsl] at h
        cases ht : w.throughputGet with
        | fail nf =>
          rw [ht] at h
          dsimp only at h
          by_cases hnf : nf = true
          · rw [if_neg (not_not_intro hnf)] at h
            simp at h
          · rw [if_pos hnf] at h
            simp only [Prod.mk.injEq, Outcome.fail.injEq] at h
            exact h.1.2.symm
        | ok t =>
          rw [ht] at h
          simp at h

theorem read_fail_preserves_id (d : ResourceData) (w : ReadWorld) :
    ∀ e s ev, resourceCosmosDbMongoDatabaseRead d w = (.fail e s, ev) →
      s.id = d.id := by
  intro e s ev h
  unfold resourceCosmosDbMongoDatabaseRead at h
  cases hp : MongodbDatabaseID d.id with
  | error e0 =>
    rw [hp] at h
    dsimp only at h
    simp only [Prod.mk.injEq, Outcome.fail.injEq] at h
    rw [← h.1.2]
  | ok idv =>
    rw [hp] at h
    dsimp only at h
    cases hg : w.get with
    | fail nf =>
      rw [hg] at h
      dsimp only at h
      by_cases hnf : nf = true
      · rw [if_pos hnf] at h
        simp at h
      · rw [if_neg hnf] at h
        simp only [Prod.mk.injEq, Outcome.fail.injEq] at h
        rw [← h.1.2]
    | ok resp =>
      rw [hg] at h
      dsimp only at h
      have hs2 := readThroughputPhase_fail_state _ w idv _ e s ev h
      rw [hs2]
      cases resp.props with
      | none => rfl
      | some props =>
        dsimp only
        cases props.Resource with
        | none => rfl
        | some res => rfl

/-- C8: for every Read whose base fetch reports not-found, Read clears the
persisted identifier and returns without error (drift self-heal); a base
fetch failing for any other reason, an account fetch failure, and a
throughput fetch failing for a reason other than not-found each make Read
return an error; and whenever Read returns an error the persisted
identifier is left unchanged. -/
theorem C8_read_error_policy (d : ResourceData) (w : ReadWorld)
    (idv : MongodbDatabaseId) (hparse : MongodbDatabaseID d.id = .ok idv) :
    (w.get = .fail true →
      (resourceCosmosDbMongoDatabaseRead d w).1 = .ok { d with id := "" }) ∧
    (w.get = .fail false →
      (resourceCosmosDbMongoDatabaseRead d w).1 =
        .fail (.readingDatabase idv.Name idv.DatabaseAccountName) d) ∧
    (∀ resp b, w.get = .ok resp → w.accountGet = .fail b →
      ∃ s, (resourceCosmosDbMongoDatabaseRead d w).1 =
        .fail (.readingAccount idv.DatabaseAccountName idv.ResourceGroup) s) ∧
    (∀ resp acc, w.get = .ok resp → w.accountGet = .ok acc →
      ¬ (acc.ID = none ∨ acc.ID = some "") →
      isServerlessCapacityMode acc = false → w.throughputGet = .fail false →
      ∃ s, (resourceCosmosDbMongoDatabaseRead d w).1 =
        .fail (.readingThroughput idv.Name idv.DatabaseAccountName) s) ∧
    (∀ e s ev, resourceCosmosDbMongoDatabaseRead d w = (.fail e s, ev) →
      s.id = d.id) := by
  refine ⟨?_, ?_, ?_, ?_, fun e s ev h => read_fail_preserves_id d w e s ev h⟩
  · intro hg
    unfold resourceCosmosDbMongoDatabaseRead
    rw [hparse, hg]
    rfl
  · intro hg
    unfold resourceCosmosDbMongoDatabaseRead
    rw [hparse, hg]
    rfl
  · intro resp b hg hacc
    unfold resourceCosmosDbMongoDatabaseRead
    rw [hparse, hg]
    dsimp only
    unfold readThroughputPhase
    rw [hacc]
    exact ⟨_, rfl⟩
  · intro resp acc hg hacc hid hsl ht
    unfold resourceCosmosDbMongoDatabaseRead
    rw [hparse, hg]
    dsimp only
    unfold readThroughputPhase
    rw [hacc]
    dsimp only
    rw [if_neg hid, hsl]
    rw [if_pos (by simp : ¬ (false = true))]
    rw [ht]
    dsimp only
    rw [if_pos (by simp : ¬ (false = true))]
    exact ⟨_, rfl⟩

theorem C8_read_error_policy_witness :
    MongodbDatabaseID dOrdersWithId.id = .ok idOrders ∧
    (resourceCosmosDbMongoDatabaseRead dOrdersWithId wReadDrift).1 =
      .ok { dOrdersWithId with id := "" } :=
  ⟨rfl, (C8_read_error_policy dOrdersWithId wReadDrift idOrders rfl).1 rfl⟩

/-- C9: for every Delete whose delete submission reports not-found, Delete
treats this as success: provided the wait on the future itself completes,
Delete returns without error; a delete-submission failure not classified
not-found is fatal, a wait failure is fatal, and on every success path the
persisted state is cleared (by the surrounding framework). -/
theorem C9_delete_policy (d : ResourceData) (w : DeleteWorld)
    (idv : MongodbDatabaseId) (hparse : MongodbDatabaseID d.id = .ok idv) :
    (w.delete = .fail true → w.wait = .ok () →
      (resourceCosmosDbMongoDatabaseDelete d w).1 = .ok d) ∧
    (w.delete = .fail false →
      (resourceCosmosDbMongoDatabaseDelete d w).1 =
        .fail (.deleting idv.Name idv.DatabaseAccountName) d) ∧
    (∀ b, w.wait = .fail b →
      ∃ e s, (resourceCosmosDbMongoDatabaseDelete d w).1 = .fail e s) ∧
    (∀ s ev, applyDelete d w = (.ok s, ev) → s.id = "") := by
  refine ⟨?_, ?_, ?_, ?_⟩
  · intro hd hw
    unfold resourceCosmosDbMongoDatabaseDelete
    rw [hparse, hd]
    dsimp only
    rw [if_neg (by simp : ¬ ¬ (true = true))]
    unfold deleteWait
    rw [hw]
  · intro hd
    unfold resourceCosmosDbMongoDatabaseDelete
    rw [hparse, hd]
    rfl
  · intro b hw
    unfold resourceCosmosDbMongoDatabaseDelete
    rw [hparse]
    dsimp only
    cases hd : w.delete with
    | fail nf =>
      dsimp only
      by_cases hnf : nf = true
      · rw [if_neg (not_not_intro hnf)]
        unfold deleteWait
        rw [hw]
        exact ⟨_, _, rfl⟩
      · rw [if_pos hnf]
        exact ⟨_, _, rfl⟩
    | ok u =>
      dsimp only
      unfold deleteWait
      rw [hw]
      exact ⟨_, _, rfl⟩
  · intro s ev h
    unfold applyDelete at h
    cases hD : resourceCosmosDbMongoDatabaseDelete d w with
    | mk out evs =>
      rw [hD] at h
      cases out with
      | ok s0 =>
        dsimp only at h
        simp only [Prod.mk.injEq, Outcome.ok.injEq] at h
        rw [← h.1]
      | fail e0 s0 =>
        simp at h
      | nilDereference =>
        simp at h

theorem C9_delete_policy_witness :
    MongodbDatabaseID dOrdersWithId.id = .ok idOrders ∧
    (resourceCosmosDbMongoDatabaseDelete dOrdersWithId wDeleteNotFound).1 =
      .ok dOrdersWithId :=
  ⟨rfl, (C9_delete_policy dOrdersWithId wDeleteNotFound idOrders rfl).1 rfl rfl⟩
